import Mathlib

/-!
Verification development for the torch_lib registration layer, a fragment of
the aten operator catalog, and the constant-lifting IR pass of this
repository.  Python classes are embedded as Lean structures; the insertion
ordered `dict` backing `Registry._registry` is embedded as an association
list; raising code is embedded in `Except`; machine tensors are embedded as
a dtype tag plus a flat list of rational element values.
-/

namespace OnnxScript

/-- Embedding of `registration.OverloadedFunction`: an operator name together
with its registered overloads and its private helper functions. -/
structure OverloadedFunction (α : Type) where
  name : String
  overloads : List α
  privates : List α
deriving DecidableEq, Repr

/-- Embedding of `OverloadedFunction.__init__`: fresh entry with empty
overload and private buckets. -/
def OverloadedFunction.new (α : Type) (name : String) : OverloadedFunction α :=
  { name := name, overloads := [], privates := [] }

/-- Embedding of `registration.Registry`: the insertion-ordered dict
`_registry` mapping names to `OverloadedFunction`, as an association list. -/
structure Registry (α : Type) where
  registry : List (String × OverloadedFunction α)
deriving DecidableEq, Repr

/-- Embedding of `Registry.__init__`: the empty dict. -/
def Registry.empty (α : Type) : Registry α := ⟨[]⟩

/-- Python `dict.setdefault(name, OverloadedFunction(name))` followed by an
update `upd` of the entry stored under `name`: the first pair whose key is
`name` is updated in place; if none exists a fresh entry is appended at the
end (dicts are insertion ordered). -/
def setdefaultUpdate {α : Type} (upd : OverloadedFunction α → OverloadedFunction α)
    (name : String) : List (String × OverloadedFunction α) → List (String × OverloadedFunction α)
  | [] => [(name, upd (OverloadedFunction.new α name))]
  | (k, v) :: rest =>
      if k = name then (k, upd v) :: rest
      else (k, v) :: setdefaultUpdate upd name rest

/-- Effect of `Registry.register` on one entry: append `func` to `privates`
when `priv` is set, else to `overloads`. -/
def registerUpdate {α : Type} (priv : Bool) (func : α)
    (entry : OverloadedFunction α) : OverloadedFunction α :=
  if priv then { entry with privates := entry.privates ++ [func] }
  else { entry with overloads := entry.overloads ++ [func] }

/-- Embedding of `Registry.register`: `setdefault` the entry for `name`, then
append `func` to the private or public bucket. -/
def Registry.register {α : Type} (r : Registry α) (func : α) (name : String)
    (priv : Bool := false) : Registry α :=
  ⟨setdefaultUpdate (registerUpdate priv func) name r.registry⟩

/-- Embedding of `Registry.get_functions`: `dict.get(name, None)`. -/
def Registry.get_functions {α : Type} (r : Registry α) (name : String) :
    Option (OverloadedFunction α) :=
  (r.registry.find? (fun p => p.1 = name)).map (fun p => p.2)

/-- Embedding of `Registry.__getitem__`: `dict[name]`, which raises
`KeyError` for a missing name. -/
def Registry.getitem {α : Type} (r : Registry α) (name : String) :
    Except String (OverloadedFunction α) :=
  match r.registry.find? (fun p => p.1 = name) with
  | some p => Except.ok p.2
  | none => Except.error "KeyError"

/-- Embedding of `Registry.is_registered`: `get_functions(name) is not None`. -/
def Registry.is_registered {α : Type} (r : Registry α) (name : String) : Bool :=
  (r.get_functions name).isSome

/-- Embedding of `Registry.__contains__`: `name in self._registry`. -/
def Registry.contains {α : Type} (r : Registry α) (name : String) : Bool :=
  r.registry.any (fun p => p.1 = name)

/-- Embedding of `onnxscript.values.Opset(domain, version)`. -/
structure Opset where
  domain : String
  version : Nat
deriving DecidableEq, Repr

/-- The opset built inside `torch_op.wrapper`:
`Opset(domain="pkg.onnxscript.torch_lib", version=1)`. -/
def custom_opset : Opset := { domain := "pkg.onnxscript.torch_lib", version := 1 }

/-- Result of processing the decorated raw function inside `torch_op.wrapper`:
either `onnxscript.script(opset=custom_opset)(func)` (an `OnnxFunction`) or
`onnxscript.values.TracedOnnxFunction(custom_opset, func)`. -/
inductive ProcessedFunc (α : Type) where
  | onnxFunction : Opset → α → ProcessedFunc α
  | tracedOnnxFunction : Opset → α → ProcessedFunc α
deriving DecidableEq, Repr

/-- Compilation step of `torch_op.wrapper`: trace-only functions become
`TracedOnnxFunction(custom_opset, func)`, the rest are compiled by
`onnxscript.script(opset=custom_opset)(func)`. -/
def processFunc {α : Type} (trace_only : Bool) (func : α) : ProcessedFunc α :=
  if trace_only then ProcessedFunc.tracedOnnxFunction custom_opset func
  else ProcessedFunc.onnxFunction custom_opset func

/-- Embedding of the module-level `default_registry = Registry()`: its initial
state is the empty registry. -/
def default_registry (α : Type) : Registry (ProcessedFunc α) := Registry.empty _

/-- Embedding of `torch_op(...)` applied to a raw function `func`.
`defaultReg` is the current state of the process-wide `default_registry`;
`registry` is the decorator's optional `registry` argument.  The wrapper
compiles `func` and registers the processed function under `name`; when
`registry` is `None` the mutated registry is `default_registry` itself.
Returns the processed function and the mutated registry's new state. -/
def torch_op_wrapper {α : Type} (defaultReg : Registry (ProcessedFunc α))
    (registry : Option (Registry (ProcessedFunc α))) (name : String)
    (trace_only : Bool) (priv : Bool) (func : α) :
    ProcessedFunc α × Registry (ProcessedFunc α) :=
  let processed_func := processFunc trace_only func
  match registry with
  | none => (processed_func, defaultReg.register processed_func name priv)
  | some r => (processed_func, r.register processed_func name priv)

/-- Keyword-only parameters of `torch_op` as written in its `def` line:
`registry`, `trace_only` and `private`. -/
def torchOpKeywordOnlyParams : List String := ["registry", "trace_only", "private"]

/-- Python call semantics for keyword arguments: a call of `torch_op` whose
keyword-argument names are `kwargs` raises `TypeError` at the first name that
is not a declared keyword parameter, and binds successfully otherwise. -/
def torchOpAcceptKwargs (kwargs : List String) : Except String Unit :=
  match kwargs.find? (fun k => !torchOpKeywordOnlyParams.contains k) with
  | some k => Except.error ("TypeError: unexpected keyword argument " ++ k)
  | none => Except.ok ()

/-- Keyword arguments of the decorator application on `aten_all_dim` in
`ops/core.py`: `@torch_op("aten::all", overload=True)`. -/
def atenAllDimDecoratorKwargs : List String := ["overload"]

/-- Element types of the tensors the modelled catalog functions handle
(the members of `TReal` plus `BOOL`). -/
inductive DType where
  | float32
  | float64
  | int8
  | int16
  | int32
  | int64
  | bool
deriving DecidableEq, Repr

/-- Value-level effect of ONNX `Cast`/`CastLike` to element type `d`, on an
idealised rational element: integer types truncate toward zero, bool maps a
value to 0 or 1, float types keep the (idealised real) value. -/
def castValue (d : DType) (x : ℚ) : ℚ :=
  match d with
  | DType.float32 => x
  | DType.float64 => x
  | DType.bool => if x = 0 then 0 else 1
  | _ => if 0 ≤ x then (⌊x⌋ : ℚ) else (⌈x⌉ : ℚ)

/-- Tensors of the shallow embedding: an element type together with a flat
list of idealised rational element values. -/
structure Tensor where
  dtype : DType
  data : List ℚ
deriving DecidableEq, Repr

/-- A Python scalar promoted to a rank-0 (single-element) tensor. -/
def scalarT (d : DType) (v : ℚ) : Tensor := { dtype := d, data := [v] }

/-- Value part of an elementwise binary ONNX op: same-length inputs combine
elementwise, otherwise a single-element input broadcasts against the other
(non-broadcastable shapes are rejected by ONNX and never arise under the
theorems below). -/
def elementwise (f : ℚ → ℚ → ℚ) (a b : List ℚ) : List ℚ :=
  if a.length = b.length then a.zipWith f b
  else if b.length = 1 then a.map (fun v => f v (b.headD 0))
  else if a.length = 1 then b.map (fun v => f (a.headD 0) v)
  else []

/-- ONNX `Add` (the result carries the first operand's element type; operands
of an elementwise op share their element type). -/
def opAdd (a b : Tensor) : Tensor :=
  { dtype := a.dtype, data := elementwise (fun x y => x + y) a.data b.data }

/-- ONNX `Sub`. -/
def opSub (a b : Tensor) : Tensor :=
  { dtype := a.dtype, data := elementwise (fun x y => x - y) a.data b.data }

/-- ONNX `Mul`. -/
def opMul (a b : Tensor) : Tensor :=
  { dtype := a.dtype, data := elementwise (fun x y => x * y) a.data b.data }

/-- ONNX `Abs`. -/
def opAbs (a : Tensor) : Tensor :=
  { dtype := a.dtype, data := a.data.map (fun x => |x|) }

/-- ONNX `CastLike`: cast `a`'s elements to `target`'s element type. -/
def opCastLike (a target : Tensor) : Tensor :=
  { dtype := target.dtype, data := a.data.map (castValue target.dtype) }

/-- ONNX `LessOrEqual`: elementwise comparison producing a BOOL tensor,
with the same broadcasting rule as `elementwise`. -/
def opLessOrEqual (a b : Tensor) : List Bool :=
  if a.data.length = b.data.length then a.data.zipWith (fun x y => decide (x ≤ y)) b.data
  else if b.data.length = 1 then a.data.map (fun v => decide (v ≤ b.data.headD 0))
  else if a.data.length = 1 then b.data.map (fun v => decide (a.data.headD 0 ≤ v))
  else []

/-- ONNX `ReduceMin` with `keepdims=0` over all elements of an INT8 tensor:
the minimum element; per the ONNX specification, reduction of `Min` over an
empty set of values yields the data type's maximum, 127 for INT8. -/
def reduceMinInt8 (xs : List ℤ) : ℤ := xs.foldr min 127

/-- Embedding of `aten_abs`: `return op.Abs(self)`. -/
def aten_abs (self : Tensor) : Tensor := opAbs self

/-- Embedding of `aten_add`: `other = op.CastLike(other, self);
alpha = op.CastLike(alpha, other); other = op.Mul(other, alpha);
return op.Add(self, other)` (the Python float `alpha` is promoted to a
scalar tensor at its first use as an operand). -/
def aten_add (self other : Tensor) (alpha : ℚ := 1) : Tensor :=
  let other1 := opCastLike other self
  let alphaT := opCastLike (scalarT DType.float32 alpha) other1
  let other2 := opMul other1 alphaT
  opAdd self other2

/-- Embedding of `aten_allclose`:
`left_part = op.Abs(op.Sub(self, other));
right_part = op.Add(atol, op.Mul(rtol, op.Abs(other)));
is_close = op.LessOrEqual(left_part, right_part);
is_close_int = op.Cast(is_close, to=INT8.dtype);
return op.Cast(op.ReduceMin(is_close_int, keepdims=0), to=BOOL.dtype)`.
The `equal_nan` parameter is declared but never used in the body. -/
def aten_allclose (self other : Tensor) (rtol : ℚ := 1/100000)
    (atol : ℚ := 1/100000000) (equal_nan : Bool := false) : Bool :=
  let left_part := opAbs (opSub self other)
  let right_part := opAdd (scalarT self.dtype atol)
    (opMul (scalarT self.dtype rtol) (opAbs other))
  let is_close := opLessOrEqual left_part right_part
  let is_close_int := is_close.map (fun b => if b then (1 : ℤ) else 0)
  reduceMinInt8 is_close_int != 0

/-- Embedding of `aten_addbmm`: the body is `raise NotImplementedError()`. -/
def aten_addbmm (self batch1 batch2 : Tensor) (beta : ℚ := 1) (alpha : ℚ := 1) :
    Except String Tensor :=
  Except.error "NotImplementedError"

/-- Call view of `aten_abs` in the `Except` embedding of Python calls: the
body contains no `raise`, so every well-typed call returns normally. -/
def atenAbsCall (self : Tensor) : Except String Tensor := Except.ok (aten_abs self)

/-- Rank-2 tensors for the matrix operators, as a list of rows. -/
def Mat : Type := List (List ℚ)

/-- Dot product of two rows. -/
def dotProd (xs ys : List ℚ) : ℚ := (xs.zipWith (fun a b => a * b) ys).sum

/-- ONNX `MatMul` on rank-2 inputs. -/
def matMul (a b : Mat) : Mat :=
  a.map (fun row => (List.transpose b).map (fun col => dotProd row col))

/-- ONNX `Mul` of a rank-2 tensor with a broadcast Python scalar. -/
def matScale (a : Mat) (s : ℚ) : Mat := a.map (fun row => row.map (fun x => x * s))

/-- ONNX `Add` of two rank-2 tensors of the same shape. -/
def matAdd (a b : Mat) : Mat := a.zipWith (fun ra rb => ra.zipWith (fun x y => x + y) rb) b

/-- Embedding of `aten_addmm`:
`mat1_mat2 = op.MatMul(mat1, mat2); scaled_mat1_mat2 = op.Mul(mat1_mat2, alpha);
scaled_self = op.Mul(self, beta); return op.Add(scaled_self, scaled_mat1_mat2)`. -/
def aten_addmm (self mat1 mat2 : Mat) (beta : ℚ := 1) (alpha : ℚ := 1) : Mat :=
  let mat1_mat2 := matMul mat1 mat2
  let scaled_mat1_mat2 := matScale mat1_mat2 alpha
  let scaled_self := matScale self beta
  matAdd scaled_self scaled_mat1_mat2

/-- State-threaded call of the ONNX primitive `MatMul`: a primitive operator
call reads and writes no registry state, so it returns the state unchanged. -/
def opMatMulS {β : Type} (s : Registry β) (a b : Mat) : Mat × Registry β := (matMul a b, s)

/-- State-threaded call of `Mul` with a broadcast scalar. -/
def opMulScalarS {β : Type} (s : Registry β) (a : Mat) (c : ℚ) : Mat × Registry β :=
  (matScale a c, s)

/-- State-threaded call of `Add` on rank-2 tensors. -/
def opMatAddS {β : Type} (s : Registry β) (a b : Mat) : Mat × Registry β := (matAdd a b, s)

/-- State-threaded embedding of a call of `aten_addmm` (after decoration):
the body is the same sequence of primitive operator calls, threading the
registry state through each call.  The body of `aten_addmm` mentions no
registry and performs no registration. -/
def atenAddmmCall {β : Type} (s : Registry β) (self mat1 mat2 : Mat)
    (beta : ℚ := 1) (alpha : ℚ := 1) : Mat × Registry β :=
  let r1 := opMatMulS s mat1 mat2
  let r2 := opMulScalarS r1.2 r1.1 alpha
  let r3 := opMulScalarS r2.2 self beta
  opMatAddS r3.2 r3.1 r2.1

/-- Nodes of the in-memory IR graph: an operator type, the name of the node's
(first) output value, and the `value` attribute carried by `Constant` nodes.
The tensor payload type is a parameter `τ`. -/
structure IRNode (τ : Type) where
  op_type : String
  output_name : String
  attr_value : Option τ
deriving DecidableEq, Repr

/-- An IR graph: its nodes in order and its named initializers. -/
structure IRGraph (τ : Type) where
  nodes : List (IRNode τ)
  initializers : List (String × τ)
deriving DecidableEq, Repr

/-- Result record of applying an IR pass: the `modified` flag and the
resulting graph. -/
structure PassResult (τ : Type) where
  modified : Bool
  graph : IRGraph τ
deriving DecidableEq, Repr

/-- Modelled from the spec: the implementation file
`onnxscript/ir/passes/common/lift_constants_to_initializers.py` is not among
the sources (only its test is).  Modelled from the spec's description of a
generic, single-pass, stateless rewrite "lifting inline constants to named
initializers": every `Constant` node is removed from the graph and its
`value` attribute is recorded as an initializer named after the node's
output value; `modified` reports whether any node was lifted. -/
def LiftConstantsToInitializersPass {τ : Type} (g : IRGraph τ) : PassResult τ :=
  let consts := g.nodes.filter (fun n => n.op_type = "Constant")
  { modified := !consts.isEmpty
    graph :=
      { nodes := g.nodes.filter (fun n => n.op_type ≠ "Constant")
        initializers := g.initializers ++
          consts.filterMap (fun n => n.attr_value.map (fun v => (n.output_name, v))) } }

/-- A registry reachable by a sequence of `register` calls, starting from the
freshly constructed empty registry.  Each trace element is
`(func, name, private)`. -/
def Registry.ofTrace (α : Type) (ops : List (α × String × Bool)) : Registry α :=
  ops.foldl (fun r e => r.register e.1 e.2.1 e.2.2) (Registry.empty α)

theorem find?_setdefaultUpdate {α : Type}
    (upd : OverloadedFunction α → OverloadedFunction α) (n m : String)
    (l : List (String × OverloadedFunction α)) :
    ((setdefaultUpdate upd n l).find? (fun q => q.1 = m)).map (fun q => q.2) =
      if n = m then
        some (upd ((((l.find? (fun q => q.1 = m)).map (fun q => q.2))).getD
          (OverloadedFunction.new α m)))
      else (l.find? (fun q => q.1 = m)).map (fun q => q.2) := by
  induction l with
  | nil =>
      by_cases hnm : n = m
      · subst hnm
        simp [setdefaultUpdate, List.find?]
      · simp [setdefaultUpdate, List.find?, hnm]
  | cons kv rest ih =>
      obtain ⟨k, v⟩ := kv
      by_cases hkn : k = n
      · subst hkn
        by_cases hkm : k = m
        · subst hkm
          simp [setdefaultUpdate, List.find?]
        · simp [setdefaultUpdate, List.find?, hkm]
      · by_cases hkm : k = m
        · subst hkm
          have hnk : ¬ n = k := fun h => hkn h.symm
          simp [setdefaultUpdate, List.find?, hkn, hnk]
        · simp [setdefaultUpdate, List.find?, hkn, hkm, ih]

theorem register_get_functions {α : Type} (r : Registry α) (f : α) (n m : String)
    (p : Bool) :
    (r.register f n p).get_functions m =
      if n = m then
        some (registerUpdate p f ((r.get_functions m).getD (OverloadedFunction.new α m)))
      else r.get_functions m := by
  obtain ⟨l⟩ := r
  simpa [Registry.register, Registry.get_functions] using
    find?_setdefaultUpdate (registerUpdate p f) n m l

theorem contains_eq_isSome {α : Type} (r : Registry α) (m : String) :
    r.contains m = (r.get_functions m).isSome := by
  obtain ⟨l⟩ := r
  induction l with
  | nil => simp [Registry.contains, Registry.get_functions, List.find?]
  | cons kv rest ih =>
      obtain ⟨k, v⟩ := kv
      by_cases hkm : k = m
      · simp [Registry.contains, Registry.get_functions, List.find?, hkm]
      · simpa [Registry.contains, Registry.get_functions, List.find?, hkm] using ih

theorem getitem_of_find?_none {α : Type} (r : Registry α) (m : String)
    (h : r.registry.find? (fun q => q.1 = m) = none) :
    r.getitem m = Except.error "KeyError" := by
  simp [Registry.getitem, h]

theorem get_functions_eq_none {α : Type} (r : Registry α) (m : String) :
    r.get_functions m = none ↔ r.registry.find? (fun q => q.1 = m) = none := by
  simp [Registry.get_functions]

theorem ofTrace_get_functions {α : Type} (ops : List (α × String × Bool)) (n : String) :
    (Registry.ofTrace α ops).get_functions n =
      if ops.any (fun e => e.2.1 = n) then
        some { name := n,
               overloads := (ops.filter (fun e => decide (e.2.1 = n) && !e.2.2)).map
                 (fun e => e.1),
               privates := (ops.filter (fun e => decide (e.2.1 = n) && e.2.2)).map
                 (fun e => e.1) }
      else none := by
  induction ops using List.reverseRecOn with
  | nil => simp [Registry.ofTrace, Registry.empty, Registry.get_functions, List.find?]
  | append_singleton l e ih =>
      obtain ⟨f, nm, p⟩ := e
      have hfold : Registry.ofTrace α (l ++ [(f, nm, p)]) =
          (Registry.ofTrace α l).register f nm p := by
        simp [Registry.ofTrace, List.foldl_append]
      rw [hfold, register_get_functions, ih]
      by_cases hnm : nm = n
      · subst hnm
        by_cases hl : l.any (fun e => e.2.1 = nm)
        · cases p <;>
            simp [hl, List.any_append, List.filter_append, List.filter_cons,
              registerUpdate, OverloadedFunction.new]
        · have hnot : ∀ a ∈ l, ¬ (a.2.1 = nm) := by
            intro a ha hcon
            have hmem : l.any (fun e => decide (e.2.1 = nm)) = true :=
              List.any_eq_true.mpr ⟨a, ha, by simp [hcon]⟩
            exact hl hmem
          have hfilter : ∀ (b : α × String × Bool → Bool),
              l.filter (fun e => decide (e.2.1 = nm) && b e) = [] := by
            intro b
            rw [List.filter_eq_nil_iff]
            intro a ha
            simp [hnot a ha]
          cases p <;>
            simp [hl, List.any_append, List.filter_append, List.filter_cons,
              registerUpdate, OverloadedFunction.new, hfilter]
      · have hthen : ((l ++ [(f, nm, p)]).any (fun e => e.2.1 = n)) =
            (l.any (fun e => e.2.1 = n)) := by
          simp [List.any_append, hnm]
        have hfe : ∀ (b : α × String × Bool → Bool),
            (l ++ [(f, nm, p)]).filter (fun e => decide (e.2.1 = n) && b e) =
              l.filter (fun e => decide (e.2.1 = n) && b e) := by
          intro b
          simp [List.filter_append, hnm]
        rw [hthen, if_neg hnm]
        by_cases hl : l.any (fun e => e.2.1 = n) <;>
          simp [hl, hfe]

/-- C1: after `register(f, n, private=True)` the entry for `n` (created fresh
if missing) has `f` appended to `privates` with `overloads` unchanged; after
`register(f, n, private=False)` it has `f` appended to `overloads` with
`privates` unchanged; and `torch_op`'s wrapper performs exactly this
registration on the process-wide default registry when no registry is given. -/
theorem register_buckets_and_default_registry {α : Type} (r : Registry α) (f : α)
    (n : String) :
    ((r.register f n true).get_functions n =
      some { (r.get_functions n).getD (OverloadedFunction.new α n) with
             privates :=
               ((r.get_functions n).getD (OverloadedFunction.new α n)).privates ++ [f] }) ∧
    ((r.register f n false).get_functions n =
      some { (r.get_functions n).getD (OverloadedFunction.new α n) with
             overloads :=
               ((r.get_functions n).getD (OverloadedFunction.new α n)).overloads ++ [f] }) ∧
    (∀ (β : Type) (d : Registry (ProcessedFunc β)) (trace_only priv : Bool) (g : β),
      torch_op_wrapper d none n trace_only priv g =
        (processFunc trace_only g, d.register (processFunc trace_only g) n priv)) := by
  refine ⟨?_, ?_, ?_⟩
  · rw [register_get_functions]
    simp [registerUpdate]
  · rw [register_get_functions]
    simp [registerUpdate]
  · intro β d trace_only priv g
    rfl

/-- C2 (code bug): `torch_op`'s parameter list in `registration.py` has only
the keyword parameters `registry`, `trace_only` and `private`, so the
decorator application `@torch_op("aten::all", overload=True)` on
`aten_all_dim` in `ops/core.py` raises `TypeError` instead of recording an
overload flag. -/
theorem torch_op_overload_kwarg_raises :
    torchOpAcceptKwargs atenAllDimDecoratorKwargs =
      Except.error "TypeError: unexpected keyword argument overload" := by
  rfl

/-- C7: a call of the decorated catalog function `aten_addmm` threads the
registry state through untouched, its value does not depend on the registry
state, and two invocations with equal arguments return equal results; all
registry mutation happens at decoration time (`torch_op_wrapper`), never at
call time. -/
theorem catalog_call_pure_and_stateless {β : Type} (s s' : Registry β)
    (self mat1 mat2 : Mat) (beta alpha : ℚ) :
    (atenAddmmCall s self mat1 mat2 beta alpha).2 = s ∧
    (atenAddmmCall s self mat1 mat2 beta alpha).1 =
      (atenAddmmCall s' self mat1 mat2 beta alpha).1 ∧
    (atenAddmmCall s self mat1 mat2 beta alpha).1 =
      aten_addmm self mat1 mat2 beta alpha :=
  ⟨rfl, rfl, rfl⟩

/-- C8: for a name never registered in a registry built by `register` calls,
`get_functions` returns `None`, `is_registered` and `in` return `False`, and
`[]` raises `KeyError`; after any `register` under the name, `is_registered`
returns `True`. -/
theorem registry_missing_name_behavior {α : Type} (ops : List (α × String × Bool))
    (n : String) (h : ∀ e ∈ ops, e.2.1 ≠ n) :
    (Registry.ofTrace α ops).get_functions n = none ∧
    (Registry.ofTrace α ops).is_registered n = false ∧
    (Registry.ofTrace α ops).contains n = false ∧
    (Registry.ofTrace α ops).getitem n = Except.error "KeyError" ∧
    (∀ (r : Registry α) (f : α) (p : Bool), (r.register f n p).is_registered n = true) := by
  have hany : ops.any (fun e => e.2.1 = n) = false := by
    rw [Bool.eq_false_iff]
    intro hcon
    obtain ⟨e, he, hpe⟩ := List.any_eq_true.mp hcon
    exact h e he (by simpa using hpe)
  have hnone : (Registry.ofTrace α ops).get_functions n = none := by
    rw [ofTrace_get_functions, hany]
    simp
  refine ⟨hnone, ?_, ?_, ?_, ?_⟩
  · simp [Registry.is_registered, hnone]
  · rw [contains_eq_isSome, hnone]
    rfl
  · exact getitem_of_find?_none _ _ ((get_functions_eq_none _ _).mp hnone)
  · intro r f p
    simp [Registry.is_registered, register_get_functions]

/-- C8 witness: concrete trace registering only `aten::abs`; the name
`aten::mul` was never registered and shows all the missing-name behaviours. -/
theorem registry_missing_name_behavior_witness :
    (∀ e ∈ [((0 : ℕ), ("aten::abs", false))], e.2.1 ≠ "aten::mul") ∧
    ((Registry.ofTrace ℕ [(0, ("aten::abs", false))]).get_functions "aten::mul" = none ∧
     (Registry.ofTrace ℕ [(0, ("aten::abs", false))]).is_registered "aten::mul" = false ∧
     (Registry.ofTrace ℕ [(0, ("aten::abs", false))]).contains "aten::mul" = false ∧
     (Registry.ofTrace ℕ [(0, ("aten::abs", false))]).getitem "aten::mul" =
       Except.error "KeyError" ∧
     (∀ (r : Registry ℕ) (f : ℕ) (p : Bool),
        (r.register f "aten::mul" p).is_registered "aten::mul" = true)) :=
  ⟨by decide, registry_missing_name_behavior [(0, ("aten::abs", false))] "aten::mul"
    (by decide)⟩

/-- C9: in any registry built by `register` calls, the entry stored under a
registered name `n` carries `name = n`, and its `overloads` and `privates`
buckets hold exactly the functions registered under `n` non-privately and
privately respectively, in registration order. -/
theorem registry_invariant_buckets_exact {α : Type} (ops : List (α × String × Bool))
    (n : String) (entry : OverloadedFunction α)
    (h : (Registry.ofTrace α ops).get_functions n = some entry) :
    entry.name = n ∧
    entry.overloads = (ops.filter (fun e => decide (e.2.1 = n) && !e.2.2)).map
      (fun e => e.1) ∧
    entry.privates = (ops.filter (fun e => decide (e.2.1 = n) && e.2.2)).map
      (fun e => e.1) := by
  rw [ofTrace_get_functions] at h
  by_cases hany : ops.any (fun e => e.2.1 = n)
  · rw [if_pos hany] at h
    obtain rfl := (Option.some_inj.mp h).symm
    exact ⟨rfl, rfl, rfl⟩
  · rw [if_neg hany] at h
    cases h

/-- C9 witness: a concrete trace of three registrations, two of them under
`aten::add` (one private), whose stored entry is fully determined. -/
theorem registry_invariant_buckets_exact_witness :
    ((Registry.ofTrace ℕ [(0, ("aten::add", false)), (1, ("aten::add", true)),
        (2, ("aten::mul", false))]).get_functions "aten::add" =
      some { name := "aten::add", overloads := [0], privates := [1] }) ∧
    ({ name := "aten::add", overloads := [0], privates := [1] :
        OverloadedFunction ℕ }.name = "aten::add" ∧
     ({ name := "aten::add", overloads := [0], privates := [1] :
        OverloadedFunction ℕ }).overloads =
       ([(0, ("aten::add", false)), (1, ("aten::add", true)),
         (2, ("aten::mul", false))].filter
           (fun e => decide (e.2.1 = "aten::add") && !e.2.2)).map (fun e => e.1) ∧
     ({ name := "aten::add", overloads := [0], privates := [1] :
        OverloadedFunction ℕ }).privates =
       ([(0, ("aten::add", false)), (1, ("aten::add", true)),
         (2, ("aten::mul", false))].filter
           (fun e => decide (e.2.1 = "aten::add") && e.2.2)).map (fun e => e.1)) :=
  ⟨by decide, registry_invariant_buckets_exact _ "aten::add" _ (by decide)⟩

/-- C3 counterexample: the catalog function `aten_addbmm`, applied to a
well-typed concrete input, raises `NotImplementedError` instead of returning
a value, so not every `aten_*` function in `ops/core.py` evaluates without
raising. -/
theorem aten_addbmm_raises_on_concrete_input :
    aten_addbmm { dtype := DType.float32, data := [1] }
      { dtype := DType.float32, data := [1] }
      { dtype := DType.float32, data := [1] } 1 1 =
      Except.error "NotImplementedError" := rfl

/-- C3 amended: catalog functions decorated with `torch_op` (such as
`aten_abs`) return the result of their primitive operator calls on every
well-typed input, while the undecorated stub definitions in the catalog
(such as `aten_addbmm`) raise `NotImplementedError` on every input. -/
theorem catalog_decorated_total_undecorated_raise :
    (∀ self : Tensor, atenAbsCall self = Except.ok (opAbs self)) ∧
    (∀ (self batch1 batch2 : Tensor) (beta alpha : ℚ),
      aten_addbmm self batch1 batch2 beta alpha = Except.error "NotImplementedError") :=
  ⟨fun _ => rfl, fun _ _ _ _ _ => rfl⟩

theorem length_filterMap_attr {τ : Type} (l : List (IRNode τ))
    (h : ∀ n ∈ l, n.attr_value.isSome = true) :
    (l.filterMap (fun n => n.attr_value.map (fun v => (n.output_name, v)))).length =
      l.length := by
  induction l with
  | nil => rfl
  | cons a rest ih =>
      obtain ⟨v, hv⟩ := Option.isSome_iff_exists.mp (h a (List.mem_cons_self a rest))
      simp [List.filterMap_cons, hv,
        ih (fun n hn => h n (List.mem_cons_of_mem _ hn))]

/-- C4 (spec-modelled pass): on a graph with at least one `Constant` node,
all of whose `Constant` nodes carry a `value` attribute, the pass reports
`modified = true`, leaves zero `Constant` nodes, grows the initializer list
by exactly the number of `Constant` nodes removed, and records each lifted
constant as an initializer named after the node's output. -/
theorem lift_constants_pass_lifts_all_constants {τ : Type} (g : IRGraph τ)
    (h1 : g.nodes.filter (fun n => n.op_type = "Constant") ≠ [])
    (h2 : ∀ n ∈ g.nodes, n.op_type = "Constant" → n.attr_value.isSome = true) :
    (LiftConstantsToInitializersPass g).modified = true ∧
    ((LiftConstantsToInitializersPass g).graph.nodes.filter
      (fun n => n.op_type = "Constant")) = [] ∧
    (LiftConstantsToInitializersPass g).graph.initializers.length =
      g.initializers.length +
        (g.nodes.filter (fun n => n.op_type = "Constant")).length ∧
    (∀ n ∈ g.nodes, n.op_type = "Constant" → ∀ v, n.attr_value = some v →
      (n.output_name, v) ∈ (LiftConstantsToInitializersPass g).graph.initializers) := by
  refine ⟨?_, ?_, ?_, ?_⟩
  · simp only [LiftConstantsToInitializersPass, Bool.not_eq_eq_eq_not, Bool.not_true]
    simpa [List.isEmpty_iff] using h1
  · rw [List.filter_eq_nil_iff]
    intro a ha
    have h := List.mem_filter.mp ha
    simpa using h.2
  · have hall : ∀ n ∈ g.nodes.filter (fun n => n.op_type = "Constant"),
        n.attr_value.isSome = true := by
      intro n hn
      have h := List.mem_filter.mp hn
      exact h2 n h.1 (by simpa using h.2)
    simp [LiftConstantsToInitializersPass, length_filterMap_attr _ hall]
  · intro n hn hconst v hv
    simp only [LiftConstantsToInitializersPass, List.mem_append]
    right
    rw [List.mem_filterMap]
    exact ⟨n, List.mem_filter.mpr ⟨hn, by simp [hconst]⟩, by rw [hv]; rfl⟩

/-- C4 witness: the three-node graph of the pass's unit test (`Constant`,
`Add`, `Mul`) with payload type `ℕ`. -/
theorem lift_constants_pass_lifts_all_constants_witness :
    (([{ op_type := "Constant", output_name := "val_0", attr_value := some 7 },
       { op_type := "Add", output_name := "add_out", attr_value := none },
       { op_type := "Mul", output_name := "mul_out", attr_value := none }] :
         List (IRNode ℕ)).filter (fun n => n.op_type = "Constant") ≠ [] ∧
     (∀ n ∈ ([{ op_type := "Constant", output_name := "val_0", attr_value := some 7 },
       { op_type := "Add", output_name := "add_out", attr_value := none },
       { op_type := "Mul", output_name := "mul_out", attr_value := none }] :
         List (IRNode ℕ)), n.op_type = "Constant" → n.attr_value.isSome = true)) ∧
    (LiftConstantsToInitializersPass
      { nodes := [{ op_type := "Constant", output_name := "val_0", attr_value := some 7 },
          { op_type := "Add", output_name := "add_out", attr_value := none },
          { op_type := "Mul", output_name := "mul_out", attr_value := none }],
        initializers := ([] : List (String × ℕ)) }).modified = true :=
  ⟨⟨by decide, by decide⟩,
    (lift_constants_pass_lifts_all_constants
      { nodes := [{ op_type := "Constant", output_name := "val_0", attr_value := some 7 },
          { op_type := "Add", output_name := "add_out", attr_value := none },
          { op_type := "Mul", output_name := "mul_out", attr_value := none }],
        initializers := ([] : List (String × ℕ)) }
      (by decide) (by decide)).1⟩

/-- C5 (spec-modelled pass): the pass is idempotent; a second application to
the result of a first one reports `modified = false` and returns the graph
unchanged. -/
theorem lift_constants_pass_idempotent {τ : Type} (g : IRGraph τ) :
    LiftConstantsToInitializersPass (LiftConstantsToInitializersPass g).graph =
      { modified := false, graph := (LiftConstantsToInitializersPass g).graph } := by
  have h1 : ((g.nodes.filter (fun n => n.op_type ≠ "Constant")).filter
      (fun n => n.op_type = "Constant")) = [] := by
    rw [List.filter_eq_nil_iff]
    intro a ha
    have h := List.mem_filter.mp ha
    simpa using h.2
  have h2 : ((g.nodes.filter (fun n => n.op_type ≠ "Constant")).filter
      (fun n => n.op_type ≠ "Constant")) =
        g.nodes.filter (fun n => n.op_type ≠ "Constant") := by
    simp [List.filter_filter]
  simp [LiftConstantsToInitializersPass, h1, h2]

theorem elementwise_eq_zipWith (f : ℚ → ℚ → ℚ) (a b : List ℚ) (h : a.length = b.length) :
    elementwise f a b = a.zipWith f b := by
  unfold elementwise
  rw [if_pos h]

theorem elementwise_singleton_right (f : ℚ → ℚ → ℚ) (a : List ℚ) (c : ℚ) :
    elementwise f a [c] = a.map (fun v => f v c) := by
  unfold elementwise
  by_cases h : a.length = 1
  · obtain ⟨x, rfl⟩ := List.length_eq_one.mp h
    simp
  · simp [h]

theorem elementwise_singleton_left (f : ℚ → ℚ → ℚ) (c : ℚ) (b : List ℚ) :
    elementwise f [c] b = b.map (fun v => f c v) := by
  unfold elementwise
  by_cases h : b.length = 1
  · obtain ⟨x, rfl⟩ := List.length_eq_one.mp h
    simp
  · have h1 : ¬ (1 = b.length) := fun hc => h hc.symm
    simp [h1, h]

/-- C6: `aten_add` re-expresses `add.Tensor` as `self + alpha * other`, with
`other` and `alpha` cast to `self`'s element type before the multiply and
the add; stated here for equal-length (elementwise-broadcastable) flat
tensors. -/
theorem aten_add_eq_self_add_alpha_mul_other (self other : Tensor) (alpha : ℚ)
    (h : other.data.length = self.data.length) :
    (aten_add self other alpha).dtype = self.dtype ∧
    (aten_add self other alpha).data =
      self.data.zipWith
        (fun s o => s + castValue self.dtype alpha * castValue self.dtype o)
        other.data := by
  constructor
  · rfl
  · have hmul : (opMul (opCastLike other self)
        (opCastLike (scalarT DType.float32 alpha) (opCastLike other self))).data =
          other.data.map
            (fun o => castValue self.dtype o * castValue self.dtype alpha) := by
      show elementwise (fun x y => x * y) (other.data.map (castValue self.dtype))
          [castValue self.dtype alpha] = _
      rw [elementwise_singleton_right, List.map_map]
      rfl
    show elementwise (fun x y => x + y) self.data
        (opMul (opCastLike other self)
          (opCastLike (scalarT DType.float32 alpha) (opCastLike other self))).data = _
    rw [hmul, elementwise_eq_zipWith _ _ _ (by simp [h]), List.zipWith_map_right]
    have hfun : (fun (s o : ℚ) =>
          s + castValue self.dtype o * castValue self.dtype alpha) =
        (fun s o => s + castValue self.dtype alpha * castValue self.dtype o) := by
      funext s o
      ring
    rw [hfun]

/-- C6 witness: concrete float tensors of length two with `alpha = 2`. -/
theorem aten_add_eq_self_add_alpha_mul_other_witness :
    ((Tensor.mk DType.float32 [3, 4]).data.length =
      (Tensor.mk DType.float32 [1, 2]).data.length) ∧
    ((aten_add (Tensor.mk DType.float32 [1, 2]) (Tensor.mk DType.float32 [3, 4])
        2).dtype = (Tensor.mk DType.float32 [1, 2]).dtype ∧
     (aten_add (Tensor.mk DType.float32 [1, 2]) (Tensor.mk DType.float32 [3, 4])
        2).data =
       (Tensor.mk DType.float32 [1, 2]).data.zipWith
         (fun s o => s + castValue (Tensor.mk DType.float32 [1, 2]).dtype 2 *
           castValue (Tensor.mk DType.float32 [1, 2]).dtype o)
         (Tensor.mk DType.float32 [3, 4]).data) :=
  ⟨rfl, aten_add_eq_self_add_alpha_mul_other
    (Tensor.mk DType.float32 [1, 2]) (Tensor.mk DType.float32 [3, 4]) 2 rfl⟩

theorem reduceMinInt8_cons (x : ℤ) (xs : List ℤ) :
    reduceMinInt8 (x :: xs) = min x (reduceMinInt8 xs) := rfl

theorem reduceMinInt8_map_bool_nonneg (l : List Bool) :
    0 ≤ reduceMinInt8 (l.map (fun b => if b then (1 : ℤ) else 0)) := by
  induction l with
  | nil => norm_num [reduceMinInt8]
  | cons b bs ih =>
      rw [List.map_cons, reduceMinInt8_cons]
      cases b
      · exact le_min (by norm_num) ih
      · exact le_min (by norm_num) ih

theorem reduceMinInt8_map_bool_ne_zero (l : List Bool) :
    (reduceMinInt8 (l.map (fun b => if b then (1 : ℤ) else 0)) ≠ 0) ↔
      l.all (fun b => b) = true := by
  induction l with
  | nil =>
      simp [reduceMinInt8]
  | cons b bs ih =>
      have hnn := reduceMinInt8_map_bool_nonneg bs
      rw [List.map_cons, reduceMinInt8_cons, List.all_cons]
      cases b
      · have hmin : min (if false then (1 : ℤ) else 0)
            (reduceMinInt8 (bs.map (fun b => if b then (1 : ℤ) else 0))) = 0 := by
          simp only [if_neg (by simp : ¬ (false = true))]
          exact min_eq_left hnn
        simp [hmin]
        exact hnn
      · have key : (min (1 : ℤ)
            (reduceMinInt8 (bs.map (fun b => if b then (1 : ℤ) else 0))) ≠ 0) ↔
            (reduceMinInt8 (bs.map (fun b => if b then (1 : ℤ) else 0)) ≠ 0) := by
          omega
        simpa [key] using ih

theorem bne_zero_eq (x : ℤ) (b : Bool) (h : (x ≠ 0) ↔ (b = true)) : (x != 0) = b := by
  cases b
  · have hx : ¬ x ≠ 0 := fun hne => by simpa using h.mp hne
    have hx0 : x = 0 := not_not.mp hx
    subst hx0
    rfl
  · exact (bne_iff_ne).mpr (h.mpr rfl)

theorem zipWith_compare_eq_zip_map (S O : List ℚ) (rtol atol : ℚ) :
    List.zipWith (fun a b => decide (a ≤ b))
      (List.zipWith (fun s o => |s - o|) S O)
      (O.map (fun o => atol + rtol * |o|)) =
    (S.zip O).map (fun p => decide (|p.1 - p.2| ≤ atol + rtol * |p.2|)) := by
  induction S generalizing O with
  | nil => simp
  | cons s ss ih =>
      cases O with
      | nil => simp
      | cons o os => simp [ih]

/-- C10: `aten_allclose` ignores its `equal_nan` parameter, and its result is
the conjunction over all element pairs of
`|self - other| <= atol + rtol * |other|`. -/
theorem aten_allclose_independent_of_equal_nan (self other : Tensor)
    (rtol atol : ℚ) (equal_nan : Bool)
    (h : self.data.length = other.data.length) :
    (aten_allclose self other rtol atol true =
      aten_allclose self other rtol atol false) ∧
    (aten_allclose self other rtol atol equal_nan =
      (self.data.zip other.data).all
        (fun p => decide (|p.1 - p.2| ≤ atol + rtol * |p.2|))) := by
  refine ⟨rfl, ?_⟩
  have hleft : (opAbs (opSub self other)).data =
      List.zipWith (fun s o => |s - o|) self.data other.data := by
    show (elementwise (fun x y => x - y) self.data other.data).map (fun x => |x|) = _
    rw [elementwise_eq_zipWith _ _ _ h, List.map_zipWith]
  have hright : (opAdd (scalarT self.dtype atol)
      (opMul (scalarT self.dtype rtol) (opAbs other))).data =
      other.data.map (fun o => atol + rtol * |o|) := by
    show elementwise (fun x y => x + y) [atol]
        (elementwise (fun x y => x * y) [rtol] (other.data.map (fun x => |x|))) = _
    rw [elementwise_singleton_left, elementwise_singleton_left, List.map_map,
      List.map_map]
    rfl
  have hisclose : opLessOrEqual (opAbs (opSub self other))
      (opAdd (scalarT self.dtype atol)
        (opMul (scalarT self.dtype rtol) (opAbs other))) =
      (self.data.zip other.data).map
        (fun p => decide (|p.1 - p.2| ≤ atol + rtol * |p.2|)) := by
    unfold opLessOrEqual
    rw [hleft, hright]
    have hlen : (List.zipWith (fun s o => |s - o|) self.data other.data).length =
        (other.data.map (fun o => atol + rtol * |o|)).length := by
      simp [h]
    rw [if_pos hlen, zipWith_compare_eq_zip_map]
  show (reduceMinInt8 ((opLessOrEqual (opAbs (opSub self other))
      (opAdd (scalarT self.dtype atol)
        (opMul (scalarT self.dtype rtol) (opAbs other)))).map
          (fun b => if b then (1 : ℤ) else 0)) != 0) = _
  rw [hisclose]
  apply bne_zero_eq
  rw [reduceMinInt8_map_bool_ne_zero]
  simp [List.all_map, Function.comp]

/-- C10 witness: concrete float tensors of length two, `rtol = 1/10`,
`atol = 1/10`, where only one pair is close, so the result is `false`
independently of `equal_nan`. -/
theorem aten_allclose_independent_of_equal_nan_witness :
    ((Tensor.mk DType.float32 [1, 5]).data.length =
      (Tensor.mk DType.float32 [1, 2]).data.length) ∧
    ((aten_allclose (Tensor.mk DType.float32 [1, 5]) (Tensor.mk DType.float32 [1, 2])
        (1/10) (1/10) true =
      aten_allclose (Tensor.mk DType.float32 [1, 5]) (Tensor.mk DType.float32 [1, 2])
        (1/10) (1/10) false) ∧
     (aten_allclose (Tensor.mk DType.float32 [1, 5]) (Tensor.mk DType.float32 [1, 2])
        (1/10) (1/10) true =
      ((Tensor.mk DType.float32 [1, 5]).data.zip
        (Tensor.mk DType.float32 [1, 2]).data).all
          (fun p => decide (|p.1 - p.2| ≤ 1/10 + 1/10 * |p.2|)))) :=
  ⟨rfl, aten_allclose_independent_of_equal_nan
    (Tensor.mk DType.float32 [1, 5]) (Tensor.mk DType.float32 [1, 2])
    (1/10) (1/10) true rfl⟩

end OnnxScript
